import Mathlib

/-
Verification of the NaturalL5 evaluation core.

Shallow embedding of:
  * src/web-runtime-prototype/src/Environment.ts (Frame, Environment),
  * the l5 AST construction invariants (TemporalConstraint,
    RegulativeRuleConclusion) from the AST source file.

Modelling conventions:
  * JS `Map<number, FrameSymbol>` is an association list with JS Map
    semantics: `get` finds the first entry with the key, `set` replaces an
    existing entry in place (preserving insertion order) or appends.
  * `internal_assertion(pred, msg)` throws when `pred()` is false; throwing
    code is embedded as `Except ScopeError` / `Except ConstructionError`.
  * JS objects live on a heap; the only cross-environment aliasing in this
    code is the global frame, which `copy`/`set_var`/`add_frame`/... share
    by reference.  We model the heap of `Frame` objects as a `Store` and an
    environment's `global_frame` as a reference (index) into it, while the
    frame stack, which is freshly copied by every operation that builds a
    new environment, is held by value.
  * JS numbers are embedded as `Int` (no arithmetic on them occurs in the
    embedded code); slot indices and frame indices are `Nat` as produced by
    the resolution pass, except where JS computes `length - 1`, which is
    taken in `Int` to keep the empty-stack behaviour faithful.
-/

namespace NL5

/-- Embeds `UnitLiteral` from the l5 AST source: an opaque named instance of
a declared type. -/
structure UnitLiteral where
  typename : String
  instance_name : String
deriving DecidableEq

/-- Embeds `LiteralType = PrimitiveType | UnitLiteral` where
`PrimitiveType = number | boolean` (l5 AST source). -/
inductive LiteralType where
  | num (n : Int)
  | bool (b : Bool)
  | unit (u : UnitLiteral)
deriving DecidableEq

/-- Embeds `LogicalCompositionType = "AND" | "OR"` (l5 AST source). -/
inductive LogicalCompositionType where
  | and
  | or
deriving DecidableEq

/-- Embeds `BinaryOpType` (l5 AST source): `+ - * % / > >= < <= == !=`. -/
inductive BinaryOpType where
  | add
  | sub
  | mul
  | mod
  | div
  | gt
  | ge
  | lt
  | le
  | eq
  | ne
deriving DecidableEq

/-- Embeds `UnaryOpType = "-" | "!"` (l5 AST source). -/
inductive UnaryOpType where
  | neg
  | not
deriving DecidableEq

/-- Embeds the scope component of a resolved name's address,
`env_pos[0] : "global" | number` (Environment.ts). -/
inductive ScopePos where
  | global
  | idx (i : Nat)
deriving DecidableEq

/-- Modelled from the spec: `Resolved name: {symbol: string,
address: (scope: "global"|integer, slot: integer)}`.  The defining source
file (the web-runtime AstNode module) is not part of the sources, but the
shape is fully pinned down by its uses in Environment.ts
(`name.sym`, `name.env_pos[0]`, `name.env_pos[1]`). -/
structure ResolvedName where
  sym : String
  env_pos : ScopePos × Nat
deriving DecidableEq

/-- Modelled from the spec: the web-runtime `Expression`/`AstNode` sum type
(`Literal(Value)`, `Identifier/ResolvedName`, `RelationalIdentifier`,
`ConditionalExpr`, `LogicalComposition`, `BinaryOp`, `UnaryOp`).  The
defining source file is not part of the sources; token provenance fields,
inert to all embedded code, are omitted. -/
inductive AstNode where
  | literal (value : LiteralType)
  | identifier (name : String)
  | resolvedName (name : ResolvedName)
  | relationalIdentifier (template : List String) (instances : List String)
  | conditionalExpr (pred cons alt : AstNode)
  | logicalComposition (op : LogicalCompositionType) (first second : AstNode)
  | binaryOp (op : BinaryOpType) (first second : AstNode)
  | unaryOp (op : UnaryOpType) (first : AstNode)
deriving DecidableEq

/-- Embeds `FrameSymbol` (Environment.ts): a symbol together with the AST
node bound to it. -/
structure FrameSymbol where
  sym : String
  ast : AstNode
deriving DecidableEq

/-- The content of a JS `Map<number, FrameSymbol>`, as an association list
in insertion order. -/
abbrev FrameItems := List (Nat × FrameSymbol)

/-- JS `Map.get`: the entry with the given key, if present. -/
def mapGet : FrameItems → Nat → Option FrameSymbol
  | [], _ => none
  | p :: rest, k => if p.1 = k then some p.2 else mapGet rest k

/-- JS `Map.set`: replace the entry with the given key in place (keeping
insertion order), or append a new entry. -/
def mapSet : FrameItems → Nat → FrameSymbol → FrameItems
  | [], k, v => [(k, v)]
  | p :: rest, k, v => if p.1 = k then (k, v) :: rest else p :: mapSet rest k v

/-- JS `Map.has`. -/
def mapHas (m : FrameItems) (k : Nat) : Bool :=
  (mapGet m k).isSome

/-- The iteration in `Frame.lookup_name` (Environment.ts): the key of the
first entry (in insertion order) whose symbol matches. -/
def findSym : FrameItems → String → Option Nat
  | [], _ => none
  | p :: rest, nm => if p.2.sym = nm then some p.1 else findSym rest nm

/-- Embeds `Frame` (Environment.ts): a sparse map from slot index to
(symbol, bound AST node). -/
structure Frame where
  frame_items : FrameItems
deriving DecidableEq

/-- The failures of the Environment operations; each constructor names one
`internal_assertion` site (or the final `throw null` of `lookup_name`) in
Environment.ts.  The spec calls all of these `ScopeError`. -/
inductive ScopeError where
  | outOfRange
  | slotUnoccupied
  | symbolMismatch
  | varExists
  | addOutsideScope
  | removeEmptyFrame
  | nameNotFound
deriving DecidableEq

/-- Embeds `Frame.lookup` (Environment.ts lines 17-33): fetch the slot,
assert it is occupied, assert the stored symbol matches the queried symbol,
and return the bound AST node. -/
def Frame.lookup (f : Frame) (name : ResolvedName) : Except ScopeError AstNode :=
  match mapGet f.frame_items name.env_pos.2 with
  | none => Except.error ScopeError.slotUnoccupied
  | some fs =>
    if name.sym = fs.sym then Except.ok fs.ast
    else Except.error ScopeError.symbolMismatch

/-- Embeds `Frame.lookup_name` (Environment.ts lines 35-40). -/
def Frame.lookup_name (f : Frame) (nm : String) : Option Nat :=
  findSym f.frame_items nm

/-- Embeds `Frame.copy` (Environment.ts lines 42-44): a fresh frame with
the same entries. -/
def Frame.copy (f : Frame) : Frame :=
  ⟨f.frame_items⟩

/-- Embeds `Frame.set_var` (Environment.ts lines 46-64): assert the slot is
occupied, assert the stored symbol matches, then overwrite the slot with a
`Literal` wrapping the result. -/
def Frame.set_var (f : Frame) (name : ResolvedName) (result : LiteralType) :
    Except ScopeError Frame :=
  match mapGet f.frame_items name.env_pos.2 with
  | none => Except.error ScopeError.slotUnoccupied
  | some fs =>
    if fs.sym = name.sym then
      Except.ok ⟨mapSet f.frame_items name.env_pos.2 ⟨name.sym, AstNode.literal result⟩⟩
    else Except.error ScopeError.symbolMismatch

/-- Embeds `Frame.add_var` (Environment.ts lines 66-72): assert the slot is
not yet occupied, then bind the expression there. -/
def Frame.add_var (f : Frame) (name : ResolvedName) (expr : AstNode) :
    Except ScopeError Frame :=
  if mapHas f.frame_items name.env_pos.2 then
    Except.error ScopeError.varExists
  else
    Except.ok ⟨mapSet f.frame_items name.env_pos.2 ⟨name.sym, expr⟩⟩

/-- A reference to a `Frame` object on the JS heap. -/
abbrev FrameRef := Nat

/-- The heap of `Frame` objects (only the global frames are ever shared by
reference between environments, but the store is general). -/
structure Store where
  frames : List Frame
deriving DecidableEq

/-- Dereference a frame.  A JS reference always points to a live object;
the default is never reached for references produced by this API. -/
def Store.get (s : Store) (r : FrameRef) : Frame :=
  s.frames.getD r ⟨[]⟩

/-- In-place mutation of the frame object behind a reference. -/
def Store.set (s : Store) (r : FrameRef) (f : Frame) : Store :=
  ⟨s.frames.set r f⟩

/-- Allocate a fresh frame object. -/
def Store.alloc (s : Store) (f : Frame) : Store × FrameRef :=
  (⟨s.frames ++ [f]⟩, s.frames.length)

/-- Embeds `Environment` (Environment.ts): a reference to the shared global
frame plus the stack of lexical frames (index 0 outermost, last innermost).
The stack frames are freshly copied by every environment-producing
operation, so they are held by value. -/
structure Environment where
  global_frame : FrameRef
  frames : List Frame
deriving DecidableEq

/-- Embeds `Environment.empty` (Environment.ts lines 93-95): a new
environment over a freshly allocated empty global frame. -/
def Environment.empty (s : Store) : Store × Environment :=
  match Store.alloc s ⟨[]⟩ with
  | (s2, r) => (s2, ⟨r, []⟩)

/-- The scope-resolution step shared by `Environment.lookup` and
`Environment.set_var` (Environment.ts): the global frame for `"global"`,
otherwise `frames[idx]`, which is out of range when the index is not below
the stack length. -/
def Environment.frameAt (s : Store) (e : Environment) : ScopePos → Option Frame
  | ScopePos.global => some (Store.get s e.global_frame)
  | ScopePos.idx i => e.frames[i]?

/-- Embeds `Environment.lookup` (Environment.ts lines 97-113): resolve the
frame by the name's scope (asserting the index is in range), then
`Frame.lookup` in it. -/
def Environment.lookup (s : Store) (e : Environment) (name : ResolvedName) :
    Except ScopeError AstNode :=
  match Environment.frameAt s e name.env_pos.1 with
  | none => Except.error ScopeError.outOfRange
  | some f => Frame.lookup f name

/-- The `while (p1 > 0)` loop of `Environment.lookup_name` (Environment.ts
lines 115-127): search the stack frames from the innermost (the last)
outward, returning the first stack index and slot whose frame binds the
symbol. -/
def stackSearch : List Frame → String → Option (Nat × Nat)
  | [], _ => none
  | f :: rest, nm =>
    match stackSearch rest nm with
    | some r => some (r.1 + 1, r.2)
    | none =>
      match Frame.lookup_name f nm with
      | some p2 => some (0, p2)
      | none => none

/-- Embeds `Environment.lookup_name` (Environment.ts lines 115-127): search
the stack innermost-outward, then the global frame; when the name is bound
nowhere the JS code throws (`throw null`), embedded as an error. -/
def Environment.lookup_name (s : Store) (e : Environment) (nm : String) :
    Except ScopeError (ScopePos × Nat) :=
  match stackSearch e.frames nm with
  | some (p1, p2) => Except.ok (ScopePos.idx p1, p2)
  | none =>
    match Frame.lookup_name (Store.get s e.global_frame) nm with
    | some p2 => Except.ok (ScopePos.global, p2)
    | none => Except.error ScopeError.nameNotFound

/-- Embeds `Environment.copy` (Environment.ts lines 129-134): the same
global frame reference, and a fresh copy of every stack frame. -/
def Environment.copy (e : Environment) : Environment :=
  ⟨e.global_frame, e.frames.map Frame.copy⟩

/-- Embeds `Environment.set_var` (Environment.ts lines 136-155): copy the
environment, resolve the addressed frame in the copy (the global frame is
the shared object; a stack index is asserted in range), and mutate that
frame via `Frame.set_var`.  Mutating the global frame is a store update at
the shared reference; mutating a (freshly copied) stack frame only touches
the new environment. -/
def Environment.set_var (s : Store) (e : Environment) (name : ResolvedName)
    (result : LiteralType) : Except ScopeError (Store × Environment) :=
  let new_env := Environment.copy e
  match name.env_pos.1 with
  | ScopePos.global =>
    match Frame.set_var (Store.get s new_env.global_frame) name result with
    | Except.error err => Except.error err
    | Except.ok f => Except.ok (Store.set s new_env.global_frame f, new_env)
  | ScopePos.idx i =>
    match new_env.frames[i]? with
    | none => Except.error ScopeError.outOfRange
    | some f =>
      match Frame.set_var f name result with
      | Except.error err => Except.error err
      | Except.ok f2 =>
        Except.ok (s, { new_env with frames := new_env.frames.set i f2 })

/-- Embeds `Environment.add_var_mut` (Environment.ts lines 163-178): for a
global name, mutate the shared global frame; for a stack index, assert it
equals `frames.length - 1` (JS arithmetic, taken in `Int`) and mutate the
innermost frame. -/
def Environment.add_var_mut (s : Store) (e : Environment) (name : ResolvedName)
    (expr : AstNode) : Except ScopeError (Store × Environment) :=
  match name.env_pos.1 with
  | ScopePos.global =>
    match Frame.add_var (Store.get s e.global_frame) name expr with
    | Except.error err => Except.error err
    | Except.ok f => Except.ok (Store.set s e.global_frame f, e)
  | ScopePos.idx i =>
    if (i : Int) = (e.frames.length : Int) - 1 then
      match e.frames[i]? with
      | none => Except.error ScopeError.addOutsideScope
      | some f =>
        match Frame.add_var f name expr with
        | Except.error err => Except.error err
        | Except.ok f2 => Except.ok (s, { e with frames := e.frames.set i f2 })
    else Except.error ScopeError.addOutsideScope

/-- Embeds `Environment.add_var` (Environment.ts lines 157-161): copy, then
add in place. -/
def Environment.add_var (s : Store) (e : Environment) (name : ResolvedName)
    (expr : AstNode) : Except ScopeError (Store × Environment) :=
  Environment.add_var_mut s (Environment.copy e) name expr

/-- Embeds `Environment.add_frame` (Environment.ts lines 180-184): fresh
copies of the stack frames plus a new empty innermost frame, same global
frame reference. -/
def Environment.add_frame (e : Environment) : Environment :=
  ⟨e.global_frame, e.frames.map Frame.copy ++ [⟨[]⟩]⟩

/-- Embeds `Environment.remove_frame` (Environment.ts lines 186-195):
assert the stack is nonempty, then drop the innermost frame (copying the
rest), same global frame reference. -/
def Environment.remove_frame (e : Environment) : Except ScopeError Environment :=
  if e.frames.length > 0 then
    Except.ok ⟨e.global_frame, (e.frames.take (e.frames.length - 1)).map Frame.copy⟩
  else Except.error ScopeError.removeEmptyFrame

/-- Embeds `Environment.is_global_scope` (Environment.ts lines 197-199). -/
def Environment.is_global_scope (e : Environment) : Bool :=
  e.frames.length == 0

/-- Embeds `TokenType` (l5 token source). -/
inductive TokenType where
  | PARTY
  | WHERE
  | MUST
  | MEANS
  | OBLIGATED
  | PERMITTED
  | FULFILLED
  | PERFORMED
  | IF
  | THEN
  | ELSE
  | TERNARY
  | WITHIN
  | BETWEEN
  | BEFORE
  | BEFORE_ON
  | AFTER
  | AFTER_ON
  | ON
  | ACTION
  | LEFT_ARROW
  | RIGHT_ARROW
  | IDENTIFIER
  | SEMICOLON
  | DOUBLE_SEMICOLON
  | AND
  | OR
  | NOT
  | DOLLAR
  | BACKTICK
  | TRUE
  | FALSE
  | PLUS
  | MINUS
  | STAR
  | SLASH
  | COMMENT
deriving DecidableEq

/-- Embeds `Token` (l5 token source): a lexical unit with its kind, text
and source position. -/
structure Token where
  token_type : TokenType
  literal : String
  line : Nat
  begin_col : Nat
  end_col : Nat
deriving DecidableEq

/-- Embeds `Identifier` (l5 AST source). -/
structure Identifier where
  identifier : String
  tokens : List Token
deriving DecidableEq

/-- Embeds `RelationalIdentifier` (l5 AST source): a templated identifier
over a tuple of sub-identifiers. -/
structure RelationalIdentifier where
  template : List String
  instances : List Identifier
  tokens : List Token
deriving DecidableEq

/-- Embeds the l5 `Expression` sum type (l5 AST source): `Literal`,
`Identifier`, `RelationalIdentifier`, `ConditionalExpr`,
`LogicalComposition`, `BinaryOp`, `UnaryOp`, each carrying its source
tokens. -/
inductive Expression where
  | literal (value : LiteralType) (tokens : List Token)
  | identifier (id : Identifier)
  | relationalIdentifier (rid : RelationalIdentifier)
  | conditionalExpr (pred cons alt : Expression) (tokens : List Token)
  | logicalComposition (op : LogicalCompositionType) (first second : Expression)
      (tokens : List Token)
  | binaryOp (op : BinaryOpType) (first second : Expression) (tokens : List Token)
  | unaryOp (op : UnaryOpType) (first : Expression) (tokens : List Token)
deriving DecidableEq

/-- Embeds `RelativeTime` (l5 AST source): day/month/year offsets. -/
structure RelativeTime where
  ndays : Int
  nmonths : Int
  nyears : Int
  tokens : List Token
deriving DecidableEq

/-- Embeds `AbsoluteTime` (l5 AST source): a calendar date. -/
structure AbsoluteTime where
  days : Int
  months : Int
  years : Int
  tokens : List Token
deriving DecidableEq

/-- Embeds the union `RelativeTime | AbsoluteTime`, discriminated in JS by
the `tag` string field. -/
inductive TimestampNode where
  | relative (t : RelativeTime)
  | absolute (t : AbsoluteTime)
deriving DecidableEq

/-- The JS `tag` discriminant of a timestamp node. -/
def TimestampNode.tag : TimestampNode → String
  | TimestampNode.relative _ => "RelativeTime"
  | TimestampNode.absolute _ => "AbsoluteTime"

/-- A failed `internal_assertion` in an AST constructor; the spec calls
these `ConstructionError`. -/
inductive ConstructionError where
  | assertionFailed (msg : String)
deriving DecidableEq

/-- Embeds `TemporalConstraint` (l5 AST source). -/
structure TemporalConstraint where
  is_relative : Bool
  timestamp : TimestampNode
  tokens : List Token
deriving DecidableEq

/-- Embeds the `TemporalConstraint` constructor (l5 AST source): assert
that `timestamp.tag` equals `"RelativeTime"` when `is_relative` and
`"AbsoluteTime"` otherwise, else the construction throws. -/
def TemporalConstraint.make (is_relative : Bool) (timestamp : TimestampNode)
    (tokens : List Token) : Except ConstructionError TemporalConstraint :=
  if TimestampNode.tag timestamp = (if is_relative then "RelativeTime" else "AbsoluteTime") then
    Except.ok ⟨is_relative, timestamp, tokens⟩
  else
    Except.error (ConstructionError.assertionFailed
      "is_relative does not match with the given timestamp")

/-- Embeds `RevokeMarker` (l5 AST source): the retract-this-relation
sentinel. -/
structure RevokeMarker where
  token : List Token
deriving DecidableEq

/-- Embeds the union `Expression | RevokeMarker` used as a mutation's
value. -/
inductive MutationValue where
  | expr (e : Expression)
  | revoke (r : RevokeMarker)
deriving DecidableEq

/-- Embeds `Mutation` (l5 AST source). -/
structure Mutation where
  id : RelationalIdentifier
  value : MutationValue
deriving DecidableEq

/-- Embeds `DeonticTemporalActionType = "PERMITTED" | "OBLIGATED"`. -/
inductive DeonticTemporalActionType where
  | PERMITTED
  | OBLIGATED
deriving DecidableEq

/-- Embeds `DeonticTemporalAction` (l5 AST source). -/
structure DeonticTemporalAction where
  is_always : Bool
  op : DeonticTemporalActionType
  action : Expression
  temporal_constraint : Option TemporalConstraint
  instance_tag : List Expression
  tokens : List Token
deriving DecidableEq

/-- Embeds `RegulativeRuleInvocation` (l5 AST source). -/
structure RegulativeRuleInvocation where
  regulative_label : Identifier
  args : List Expression
  tokens : List Token
deriving DecidableEq

/-- Embeds the union `RegulativeRuleInvocation | DeonticTemporalAction`
used in a conclusion's nested conclusions. -/
inductive ConclusionItem where
  | invocation (r : RegulativeRuleInvocation)
  | action (d : DeonticTemporalAction)
deriving DecidableEq

/-- Embeds `RegulativeRuleConclusion` (l5 AST source). -/
structure RegulativeRuleConclusion where
  fulfilled : Option Bool
  performed : Option Bool
  mutations : List Mutation
  conclusions : List ConclusionItem
  tokens : List Token
deriving DecidableEq

/-- Embeds the `RegulativeRuleConclusion` constructor (l5 AST source):
assert `fulfilled == true || performed == true` (JS loose equality on a
`boolean | undefined`, which holds exactly when the operand is `true`),
else the construction throws. -/
def RegulativeRuleConclusion.make (fulfilled performed : Option Bool)
    (mutations : List Mutation) (conclusions : List ConclusionItem)
    (tokens : List Token) : Except ConstructionError RegulativeRuleConclusion :=
  if fulfilled = some true ∨ performed = some true then
    Except.ok ⟨fulfilled, performed, mutations, conclusions, tokens⟩
  else
    Except.error (ConstructionError.assertionFailed
      "RegulativeRuleConclusion requires one of fulfilled or performed")

/-- A concrete global frame binding slot 0 to the literal 1 under the
symbol x, for concrete instances of the theorems below. -/
def gFrame0 : Frame :=
  ⟨[(0, ⟨"x", AstNode.literal (LiteralType.num 1)⟩)]⟩

/-- A one-object heap holding `gFrame0`. -/
def store0 : Store :=
  ⟨[gFrame0]⟩

/-- An environment with global frame `gFrame0` (reference 0) and an empty
frame stack. -/
def env0 : Environment :=
  ⟨0, []⟩

/-- The heap `store0` after `set_var` rebinds the global slot 0 to the
literal 2. -/
def store1 : Store :=
  ⟨[⟨[(0, ⟨"x", AstNode.literal (LiteralType.num 2)⟩)]⟩]⟩

/-- The resolved name of the global binding in `gFrame0`. -/
def nameGX : ResolvedName :=
  ⟨"x", (ScopePos.global, 0)⟩

/-- An environment over `store0` with two stack frames: an outer frame
binding slot 0 to the literal 5 under the symbol y, and an inner frame
binding slot 0 to the literal 7 under the symbol z. -/
def env1 : Environment :=
  ⟨0, [⟨[(0, ⟨"y", AstNode.literal (LiteralType.num 5)⟩)]⟩,
       ⟨[(0, ⟨"z", AstNode.literal (LiteralType.num 7)⟩)]⟩]⟩

/-- The resolved name of the outer-frame binding in `env1`. -/
def nameY : ResolvedName :=
  ⟨"y", (ScopePos.idx 0, 0)⟩

/-- The resolved name of the inner-frame binding in `env1`. -/
def nameZ : ResolvedName :=
  ⟨"z", (ScopePos.idx 1, 0)⟩

/-- `env1` after `set_var` rebinds y to the literal 9. -/
def env2 : Environment :=
  ⟨0, [⟨[(0, ⟨"y", AstNode.literal (LiteralType.num 9)⟩)]⟩,
       ⟨[(0, ⟨"z", AstNode.literal (LiteralType.num 7)⟩)]⟩]⟩

/-! ### Helper lemmas -/

theorem mapGet_mapSet_self (m : FrameItems) (k : Nat) (v : FrameSymbol) :
    mapGet (mapSet m k v) k = some v := by
  induction m with
  | nil => simp [mapSet, mapGet]
  | cons p rest ih =>
    by_cases h : p.1 = k
    · simp [mapSet, h, mapGet]
    · simp [mapSet, h, mapGet, ih]

theorem mapGet_mapSet_ne (m : FrameItems) (k j : Nat) (v : FrameSymbol)
    (h : j ≠ k) : mapGet (mapSet m k v) j = mapGet m j := by
  induction m with
  | nil => simp [mapSet, mapGet, Ne.symm h]
  | cons p rest ih =>
    by_cases hp : p.1 = k
    · simp [mapSet, hp, mapGet, Ne.symm h]
    · simp [mapSet, hp, mapGet, ih]

theorem list_get_set_self {α : Type} (l : List α) (i : Nat) (a : α)
    (h : i < l.length) : (l.set i a)[i]? = some a := by
  induction l generalizing i with
  | nil => simp at h
  | cons x xs ih =>
    cases i with
    | zero => simp
    | succ i => simpa using ih i (by simpa using h)

theorem list_get_set_ne {α : Type} (l : List α) (i j : Nat) (a : α)
    (h : i ≠ j) : (l.set i a)[j]? = l[j]? := by
  induction l generalizing i j with
  | nil => simp
  | cons x xs ih =>
    cases i with
    | zero =>
      cases j with
      | zero => exact absurd rfl h
      | succ j => simp
    | succ i =>
      cases j with
      | zero => simp
      | succ j => simpa using ih i j (fun hh => h (by simp [hh]))

theorem frame_copy_id (f : Frame) : Frame.copy f = f := rfl

theorem frames_map_copy (l : List Frame) : l.map Frame.copy = l := by
  induction l with
  | nil => rfl
  | cons x xs ih => simp [ih, frame_copy_id]

theorem env_copy_id (e : Environment) : Environment.copy e = e := by
  cases e with
  | mk g fr => simp [Environment.copy, frames_map_copy]

/-- A successful `mapGet` on a dereferenced frame forces the reference to
be live: dangling references dereference to the empty frame. -/
theorem store_get_live (s : Store) (r : FrameRef) (k : Nat) (fs : FrameSymbol)
    (h : mapGet (Store.get s r).frame_items k = some fs) : r < s.frames.length := by
  rcases Nat.lt_or_ge r s.frames.length with hlt | hge
  · exact hlt
  · exfalso
    have hd : Store.get s r = (⟨[]⟩ : Frame) := by
      unfold Store.get
      rw [List.getD_eq_getElem?_getD, List.getElem?_eq_none hge]
      rfl
    rw [hd] at h
    simp [mapGet] at h

theorem store_get_set_self (s : Store) (r : FrameRef) (f : Frame)
    (h : r < s.frames.length) : Store.get (Store.set s r f) r = f := by
  simp [Store.get, Store.set, List.getD_eq_getElem?_getD]
  rw [list_get_set_self _ _ _ h]
  rfl

/-- Inversion for a successful `Frame.set_var`: the slot was occupied, the
stored symbol matched, and the slot now holds a `Literal` of the result. -/
theorem Frame.set_var_ok (f : Frame) (n : ResolvedName) (v : LiteralType)
    (f2 : Frame) (h : Frame.set_var f n v = Except.ok f2) :
    ∃ fs, mapGet f.frame_items n.env_pos.2 = some fs ∧ fs.sym = n.sym
      ∧ f2 = ⟨mapSet f.frame_items n.env_pos.2 ⟨n.sym, AstNode.literal v⟩⟩ := by
  cases hg : mapGet f.frame_items n.env_pos.2 with
  | none =>
    simp only [Frame.set_var, hg] at h
    exact Except.noConfusion h
  | some fs =>
    simp only [Frame.set_var, hg] at h
    by_cases hs : fs.sym = n.sym
    · rw [if_pos hs] at h
      injection h with h2
      exact ⟨fs, rfl, hs, h2.symm⟩
    · rw [if_neg hs] at h
      exact Except.noConfusion h

/-- Inversion for a successful `Frame.add_var`: the slot was free and now
holds the expression. -/
theorem Frame.add_var_ok (f : Frame) (n : ResolvedName) (expr : AstNode)
    (f2 : Frame) (h : Frame.add_var f n expr = Except.ok f2) :
    mapHas f.frame_items n.env_pos.2 = false
      ∧ f2 = ⟨mapSet f.frame_items n.env_pos.2 ⟨n.sym, expr⟩⟩ := by
  unfold Frame.add_var at h
  by_cases hh : mapHas f.frame_items n.env_pos.2
  · rw [if_pos hh] at h
    exact Except.noConfusion h
  · rw [if_neg hh] at h
    injection h with h2
    exact ⟨by simpa using hh, h2.symm⟩

/-- Inversion for a successful `Environment.set_var` at a global address:
the shared global frame object was mutated in place, and the returned
environment is (value-wise) the copy of the input. -/
theorem set_var_ok_global (s : Store) (e : Environment) (n : ResolvedName)
    (v : LiteralType) (s2 : Store) (e2 : Environment)
    (hpos : n.env_pos.1 = ScopePos.global)
    (h : Environment.set_var s e n v = Except.ok (s2, e2)) :
    ∃ f2, Frame.set_var (Store.get s e.global_frame) n v = Except.ok f2
      ∧ s2 = Store.set s e.global_frame f2 ∧ e2 = e := by
  cases hf : Frame.set_var (Store.get s e.global_frame) n v with
  | error err =>
    simp only [Environment.set_var, env_copy_id, hpos, hf] at h
    exact Except.noConfusion h
  | ok f2 =>
    simp only [Environment.set_var, env_copy_id, hpos, hf] at h
    injection h with h2
    injection h2 with ha hb
    exact ⟨f2, rfl, ha.symm, hb.symm⟩

/-- Inversion for a successful `Environment.set_var` at a stack address:
the store is untouched, and the returned environment replaces only the
addressed (freshly copied) frame. -/
theorem set_var_ok_idx (s : Store) (e : Environment) (n : ResolvedName)
    (v : LiteralType) (s2 : Store) (e2 : Environment) (i : Nat)
    (hpos : n.env_pos.1 = ScopePos.idx i)
    (h : Environment.set_var s e n v = Except.ok (s2, e2)) :
    ∃ f f2, e.frames[i]? = some f ∧ Frame.set_var f n v = Except.ok f2
      ∧ s2 = s ∧ e2 = ⟨e.global_frame, e.frames.set i f2⟩ := by
  cases hfi : e.frames[i]? with
  | none =>
    simp only [Environment.set_var, env_copy_id, hpos, hfi] at h
    exact Except.noConfusion h
  | some f =>
    cases hf : Frame.set_var f n v with
    | error err =>
      simp only [Environment.set_var, env_copy_id, hpos, hfi, hf] at h
      exact Except.noConfusion h
    | ok f2 =>
      simp only [Environment.set_var, env_copy_id, hpos, hfi, hf] at h
      injection h with h2
      injection h2 with ha hb
      exact ⟨f, f2, rfl, hf, ha.symm, hb.symm⟩

/-- Inversion for a successful `Environment.add_var_mut` at a global
address. -/
theorem add_var_mut_ok_global (s : Store) (e : Environment) (n : ResolvedName)
    (expr : AstNode) (s2 : Store) (e2 : Environment)
    (hpos : n.env_pos.1 = ScopePos.global)
    (h : Environment.add_var_mut s e n expr = Except.ok (s2, e2)) :
    ∃ f2, Frame.add_var (Store.get s e.global_frame) n expr = Except.ok f2
      ∧ s2 = Store.set s e.global_frame f2 ∧ e2 = e := by
  cases hf : Frame.add_var (Store.get s e.global_frame) n expr with
  | error err =>
    simp only [Environment.add_var_mut, hpos, hf] at h
    exact Except.noConfusion h
  | ok f2 =>
    simp only [Environment.add_var_mut, hpos, hf] at h
    injection h with h2
    injection h2 with ha hb
    exact ⟨f2, rfl, ha.symm, hb.symm⟩

/-- Inversion for a successful `Environment.add_var_mut` at a stack
address: the index is the innermost frame's, and the store is untouched. -/
theorem add_var_mut_ok_idx (s : Store) (e : Environment) (n : ResolvedName)
    (expr : AstNode) (s2 : Store) (e2 : Environment) (i : Nat)
    (hpos : n.env_pos.1 = ScopePos.idx i)
    (h : Environment.add_var_mut s e n expr = Except.ok (s2, e2)) :
    (i : Int) = (e.frames.length : Int) - 1
      ∧ ∃ f f2, e.frames[i]? = some f ∧ Frame.add_var f n expr = Except.ok f2
          ∧ s2 = s ∧ e2 = ⟨e.global_frame, e.frames.set i f2⟩ := by
  by_cases hi : (i : Int) = (e.frames.length : Int) - 1
  · refine ⟨hi, ?_⟩
    cases hfi : e.frames[i]? with
    | none =>
      simp only [Environment.add_var_mut, hpos, if_pos hi, hfi] at h
      exact Except.noConfusion h
    | some f =>
      cases hf : Frame.add_var f n expr with
      | error err =>
        simp only [Environment.add_var_mut, hpos, if_pos hi, hfi, hf] at h
        exact Except.noConfusion h
      | ok f2 =>
        simp only [Environment.add_var_mut, hpos, if_pos hi, hfi, hf] at h
        injection h with h2
        injection h2 with ha hb
        exact ⟨f, f2, rfl, hf, ha.symm, hb.symm⟩
  · simp only [Environment.add_var_mut, hpos, if_neg hi] at h
    exact Except.noConfusion h

/-- If the stack search misses, no stack frame binds the symbol. -/
theorem stackSearch_none_all (fs : List Frame) (nm : String)
    (h : stackSearch fs nm = none) :
    ∀ (j : Nat) (g : Frame), fs[j]? = some g → Frame.lookup_name g nm = none := by
  induction fs with
  | nil => intro j g hg; simp at hg
  | cons f rest ih =>
    intro j g hg
    cases hr : stackSearch rest nm with
    | some r =>
      simp only [stackSearch, hr] at h
      exact Option.noConfusion h
    | none =>
      cases hl : Frame.lookup_name f nm with
      | some p2 =>
        simp only [stackSearch, hr, hl] at h
        exact Option.noConfusion h
      | none =>
        cases j with
        | zero =>
          simp only [List.getElem?_cons_zero, Option.some.injEq] at hg
          rw [hg] at hl
          exact hl
        | succ j =>
          exact ih hr j g (by simpa using hg)

/-- If no stack frame binds the symbol, the stack search misses. -/
theorem stackSearch_eq_none_of (fs : List Frame) (nm : String)
    (h : ∀ (j : Nat) (g : Frame), fs[j]? = some g → Frame.lookup_name g nm = none) :
    stackSearch fs nm = none := by
  induction fs with
  | nil => rfl
  | cons f rest ih =>
    have hr : stackSearch rest nm = none :=
      ih (fun j g hg => h (j + 1) g (by simpa using hg))
    have hf : Frame.lookup_name f nm = none := h 0 f (by simp)
    simp only [stackSearch, hr, hf]

/-- A hit of the stack search is sound: the frame at the returned index
binds the symbol at the returned slot, and every more-inner frame (larger
index) does not bind it. -/
theorem stackSearch_found (fs : List Frame) (nm : String) :
    ∀ i p2, stackSearch fs nm = some (i, p2) →
      ∃ f, fs[i]? = some f ∧ Frame.lookup_name f nm = some p2
        ∧ ∀ (j : Nat) (g : Frame), i < j → fs[j]? = some g →
            Frame.lookup_name g nm = none := by
  induction fs with
  | nil => intro i p2 h; exact Option.noConfusion h
  | cons f rest ih =>
    intro i p2 h
    cases hr : stackSearch rest nm with
    | some r =>
      simp only [stackSearch, hr, Option.some.injEq] at h
      obtain ⟨h1, h2⟩ := Prod.mk.injEq _ _ _ _ ▸ h
      obtain ⟨g, hg, hlg, hall⟩ :=
        ih r.1 r.2 (hr.trans (congrArg some Prod.mk.eta.symm))
      subst h1
      subst h2
      refine ⟨g, by simpa using hg, hlg, ?_⟩
      intro j g2 hij hjg
      cases j with
      | zero => omega
      | succ j2 => exact hall j2 g2 (by omega) (by simpa using hjg)
    | none =>
      cases hl : Frame.lookup_name f nm with
      | some q =>
        simp only [stackSearch, hr, hl, Option.some.injEq] at h
        obtain ⟨h1, h2⟩ := Prod.mk.injEq _ _ _ _ ▸ h
        subst h1
        subst h2
        refine ⟨f, by simp, hl, ?_⟩
        intro j g2 hij hjg
        cases j with
        | zero => omega
        | succ j2 => exact stackSearch_none_all rest nm hr j2 g2 (by simpa using hjg)
      | none =>
        simp only [stackSearch, hr, hl] at h
        exact Option.noConfusion h

/-- The stack search is complete: if the frame at index `i` binds the
symbol and every more-inner frame does not, the search returns `i`. -/
theorem stackSearch_complete (fs : List Frame) (nm : String) :
    ∀ i p2 f, fs[i]? = some f → Frame.lookup_name f nm = some p2 →
      (∀ (j : Nat) (g : Frame), i < j → fs[j]? = some g →
        Frame.lookup_name g nm = none) →
      stackSearch fs nm = some (i, p2) := by
  induction fs with
  | nil => intro i p2 f hf; simp at hf
  | cons f0 rest ih =>
    intro i p2 f hf hl hall
    cases i with
    | zero =>
      simp only [List.getElem?_cons_zero, Option.some.injEq] at hf
      have hr : stackSearch rest nm = none :=
        stackSearch_eq_none_of rest nm
          (fun j g hg => hall (j + 1) g (Nat.succ_pos j) (by simpa using hg))
      rw [hf]
      simp only [stackSearch, hr, hl]
    | succ i2 =>
      have hf2 : rest[i2]? = some f := by simpa using hf
      have hall2 : ∀ (j : Nat) (g : Frame), i2 < j → rest[j]? = some g →
          Frame.lookup_name g nm = none :=
        fun j g hij hg => hall (j + 1) g (by omega) (by simpa using hg)
      have hr := ih i2 p2 f hf2 hl hall2
      simp only [stackSearch, hr]

/-- `Frame.lookup` is unaffected by a `mapSet` at a different slot. -/
theorem Frame.lookup_set_other (f : Frame) (n m : ResolvedName) (v : LiteralType)
    (hslot : m.env_pos.2 ≠ n.env_pos.2) :
    Frame.lookup ⟨mapSet f.frame_items n.env_pos.2 ⟨n.sym, AstNode.literal v⟩⟩ m
      = Frame.lookup f m := by
  unfold Frame.lookup
  rw [mapGet_mapSet_ne _ _ _ _ hslot]

/-! ### Claim theorems -/

/-- Claim C3: `lookup` resolves the global frame or `frames[idx]` by the
name's address and returns `Except.ok ast` exactly when the addressed frame
exists, its addressed slot is occupied, and the stored symbol equals the
queried symbol with `ast` the stored node — otherwise it fails with a
`ScopeError`; and the address resolution itself is out of range exactly for
a stack index at or beyond the stack length (never for the global scope). -/
theorem lookup_characterization (s : Store) (e : Environment) (n : ResolvedName) :
    (∀ ast, Environment.lookup s e n = Except.ok ast ↔
      ∃ f fs, Environment.frameAt s e n.env_pos.1 = some f
        ∧ mapGet f.frame_items n.env_pos.2 = some fs
        ∧ fs.sym = n.sym ∧ fs.ast = ast)
  ∧ (Environment.frameAt s e n.env_pos.1 = none ↔
      ∃ i, n.env_pos.1 = ScopePos.idx i ∧ e.frames.length ≤ i) := by
  constructor
  · intro ast
    cases hf : Environment.frameAt s e n.env_pos.1 with
    | none =>
      simp only [Environment.lookup, hf]
      constructor
      · intro h; exact Except.noConfusion h
      · rintro ⟨f, fs, hsome, _⟩; exact Option.noConfusion hsome
    | some f =>
      simp only [Environment.lookup, hf]
      cases hg : mapGet f.frame_items n.env_pos.2 with
      | none =>
        simp only [Frame.lookup, hg]
        constructor
        · intro h; exact Except.noConfusion h
        · rintro ⟨f1, fs, hsome, hget, _⟩
          injection hsome with hfeq
          rw [hfeq.symm, hg] at hget
          exact Option.noConfusion hget
      | some fs =>
        simp only [Frame.lookup, hg]
        by_cases hs : n.sym = fs.sym
        · rw [if_pos hs]
          constructor
          · intro h
            injection h with h2
            exact ⟨f, fs, rfl, hg, hs.symm, h2⟩
          · rintro ⟨f1, fs1, hsome, hget, hsym, hast⟩
            injection hsome with hfeq
            rw [hfeq.symm, hg] at hget
            injection hget with hfs
            rw [hfs.symm] at hast
            rw [hast]
        · rw [if_neg hs]
          constructor
          · intro h; exact Except.noConfusion h
          · rintro ⟨f1, fs1, hsome, hget, hsym, _⟩
            injection hsome with hfeq
            rw [hfeq.symm, hg] at hget
            injection hget with hfs
            rw [hfs.symm] at hsym
            exact absurd hsym.symm hs
  · cases hp : n.env_pos.1 with
    | global =>
      simp [Environment.frameAt]
    | idx i =>
      simp only [Environment.frameAt]
      constructor
      · intro h
        exact ⟨i, rfl, List.getElem?_eq_none_iff.mp h⟩
      · rintro ⟨i2, hidx, hlen⟩
        injection hidx with hieq
        rw [hieq]
        exact List.getElem?_eq_none hlen

/-- Claim C4 counterexample: on an environment in which the queried bare
name is bound in no frame, `lookup_name` does not return an empty optional
— it fails (the JS code's `throw null`, embedded as an error). -/
theorem lookup_name_unbound_fails :
    Environment.lookup_name store0 env0 "nosuch"
      = Except.error ScopeError.nameNotFound := rfl

/-- Claim C4 (amended): `lookup_name` linearly searches the frame stack
from the innermost frame outward, then the global frame, returning the
(scope index, slot index) of the first frame containing the symbol — but
when the name is bound in no frame it fails (throws) rather than returning
an empty optional. -/
theorem lookup_name_characterization (s : Store) (e : Environment) (nm : String) :
    (∀ i p2, Environment.lookup_name s e nm = Except.ok (ScopePos.idx i, p2) ↔
       ((∃ f, e.frames[i]? = some f ∧ Frame.lookup_name f nm = some p2)
         ∧ ∀ (j : Nat) (g : Frame), i < j → e.frames[j]? = some g →
             Frame.lookup_name g nm = none))
  ∧ (∀ p2, Environment.lookup_name s e nm = Except.ok (ScopePos.global, p2) ↔
       ((∀ (j : Nat) (g : Frame), e.frames[j]? = some g →
            Frame.lookup_name g nm = none)
         ∧ Frame.lookup_name (Store.get s e.global_frame) nm = some p2))
  ∧ (Environment.lookup_name s e nm = Except.error ScopeError.nameNotFound ↔
       ((∀ (j : Nat) (g : Frame), e.frames[j]? = some g →
            Frame.lookup_name g nm = none)
         ∧ Frame.lookup_name (Store.get s e.global_frame) nm = none)) := by
  cases hs : stackSearch e.frames nm with
  | some r =>
    obtain ⟨i0, p0⟩ := r
    obtain ⟨f0, hf0, hl0, hall0⟩ := stackSearch_found e.frames nm i0 p0 hs
    refine ⟨?_, ?_, ?_⟩
    · intro i p2
      simp only [Environment.lookup_name, hs]
      constructor
      · intro h
        injection h with hpr
        obtain ⟨hsc, hslot⟩ := Prod.mk.injEq _ _ _ _ ▸ hpr
        injection hsc with hieq
        rw [hieq.symm, hslot.symm]
        exact ⟨⟨f0, hf0, hl0⟩, hall0⟩
      · rintro ⟨⟨f, hf, hl⟩, hall⟩
        have hc := stackSearch_complete e.frames nm i p2 f hf hl hall
        rw [hs] at hc
        injection hc with hpr
        obtain ⟨h1, h2⟩ := Prod.mk.injEq _ _ _ _ ▸ hpr
        rw [h1, h2]
    · intro p2
      simp only [Environment.lookup_name, hs]
      constructor
      · intro h
        injection h with hpr
        obtain ⟨hsc, hslot⟩ := Prod.mk.injEq _ _ _ _ ▸ hpr
        exact ScopePos.noConfusion hsc
      · rintro ⟨hall, hg⟩
        have hc : stackSearch e.frames nm = none :=
          stackSearch_eq_none_of e.frames nm (fun j g hj => hall j g hj)
        rw [hs] at hc
        exact Option.noConfusion hc
    · simp only [Environment.lookup_name, hs]
      constructor
      · intro h; exact Except.noConfusion h
      · rintro ⟨hall, hg⟩
        have hc : stackSearch e.frames nm = none :=
          stackSearch_eq_none_of e.frames nm (fun j g hj => hall j g hj)
        rw [hs] at hc
        exact Option.noConfusion hc
  | none =>
    have hnall := stackSearch_none_all e.frames nm hs
    cases hg : Frame.lookup_name (Store.get s e.global_frame) nm with
    | some q =>
      refine ⟨?_, ?_, ?_⟩
      · intro i p2
        simp only [Environment.lookup_name, hs, hg]
        constructor
        · intro h
          injection h with hpr
          obtain ⟨hsc, hslot⟩ := Prod.mk.injEq _ _ _ _ ▸ hpr
          exact ScopePos.noConfusion hsc
        · rintro ⟨⟨f, hf, hl⟩, hall⟩
          have hc := stackSearch_complete e.frames nm i p2 f hf hl hall
          rw [hs] at hc
          exact Option.noConfusion hc
      · intro p2
        simp only [Environment.lookup_name, hs, hg]
        constructor
        · intro h
          injection h with hpr
          obtain ⟨hsc, hslot⟩ := Prod.mk.injEq _ _ _ _ ▸ hpr
          rw [hslot.symm]
          exact ⟨hnall, rfl⟩
        · rintro ⟨hall, hg2⟩
          injection hg2 with hq
          rw [hq]
      · simp only [Environment.lookup_name, hs, hg]
        constructor
        · intro h; exact Except.noConfusion h
        · rintro ⟨hall, hg2⟩
          exact Option.noConfusion hg2
    | none =>
      refine ⟨?_, ?_, ?_⟩
      · intro i p2
        simp only [Environment.lookup_name, hs, hg]
        constructor
        · intro h; exact Except.noConfusion h
        · rintro ⟨⟨f, hf, hl⟩, hall⟩
          have hc := stackSearch_complete e.frames nm i p2 f hf hl hall
          rw [hs] at hc
          exact Option.noConfusion hc
      · intro p2
        simp only [Environment.lookup_name, hs, hg]
        constructor
        · intro h; exact Except.noConfusion h
        · rintro ⟨hall, hg2⟩
          exact Option.noConfusion hg2
      · simp only [Environment.lookup_name, hs, hg]
        exact ⟨fun _ => ⟨hnall, trivial⟩, fun _ => trivial⟩

/-- Claim C1: if `set_var e n v` succeeds (the name's address and symbol
are validly bound), then looking `n` up in the produced environment (under
the produced heap) returns a `Literal` wrapping exactly `v`. -/
theorem lookup_after_set_var (s : Store) (e : Environment) (n : ResolvedName)
    (v : LiteralType) (s2 : Store) (e2 : Environment)
    (h : Environment.set_var s e n v = Except.ok (s2, e2)) :
    Environment.lookup s2 e2 n = Except.ok (AstNode.literal v) := by
  cases hpos : n.env_pos.1 with
  | global =>
    obtain ⟨f2, hf, hs2, he2⟩ := set_var_ok_global s e n v s2 e2 hpos h
    obtain ⟨fs, hg, hsym, hf2⟩ := Frame.set_var_ok _ n v f2 hf
    have hlive : e.global_frame < s.frames.length := store_get_live s _ _ _ hg
    subst hs2 he2 hf2
    unfold Environment.lookup Environment.frameAt
    rw [hpos]
    simp only [store_get_set_self s _ _ hlive]
    simp [Frame.lookup, mapGet_mapSet_self]
  | idx i =>
    obtain ⟨f, f2, hfi, hf, hs2, he2⟩ := set_var_ok_idx s e n v s2 e2 i hpos h
    obtain ⟨fs, hg, hsym, hf2⟩ := Frame.set_var_ok _ n v f2 hf
    have hi : i < e.frames.length := by
      by_contra hge
      rw [List.getElem?_eq_none (Nat.le_of_not_lt hge)] at hfi
      exact Option.noConfusion hfi
    subst hs2 he2 hf2
    unfold Environment.lookup Environment.frameAt
    rw [hpos]
    simp only [list_get_set_self e.frames i _ hi]
    simp [Frame.lookup, mapGet_mapSet_self]

/-- Concrete instance of `lookup_after_set_var`: rebinding the global slot
of `env0` to the literal 2 and looking it up again. -/
theorem lookup_after_set_var_witness :
    Environment.set_var store0 env0 nameGX (LiteralType.num 2) = Except.ok (store1, env0)
  ∧ Environment.lookup store1 env0 nameGX
      = Except.ok (AstNode.literal (LiteralType.num 2)) :=
  ⟨rfl, lookup_after_set_var store0 env0 nameGX (LiteralType.num 2) store1 env0 rfl⟩

/-- Claim C2 counterexample: `set_var` at a global address mutates the
global frame shared by reference, so the ORIGINAL environment `env0` no
longer looks up its pre-mutation value: before the operation `x` was the
literal 1, afterwards the same lookup on `env0` yields the literal 2. -/
theorem set_var_global_mutates_original :
    Environment.set_var store0 env0 nameGX (LiteralType.num 2) = Except.ok (store1, env0)
  ∧ Environment.lookup store0 env0 nameGX
      = Except.ok (AstNode.literal (LiteralType.num 1))
  ∧ Environment.lookup store1 env0 nameGX
      = Except.ok (AstNode.literal (LiteralType.num 2))
  ∧ AstNode.literal (LiteralType.num 2) ≠ AstNode.literal (LiteralType.num 1) := by
  exact ⟨rfl, rfl, rfl, by decide⟩

/-- Claim C2 (amended): environment mutation is non-destructive except
through the shared global frame: whenever the mutated name or the observed
name is at a non-global address, a successful `set_var` or `add_var` leaves
every lookup on the ORIGINAL environment unchanged.  (`copy`, `add_frame`
and `remove_frame` never mutate any frame object at all, so they preserve
all lookups on the original environment unconditionally.) -/
theorem mutation_nondestructive_nonglobal (s : Store) (e : Environment)
    (n m : ResolvedName) (v : LiteralType) (expr : AstNode)
    (h : n.env_pos.1 ≠ ScopePos.global ∨ m.env_pos.1 ≠ ScopePos.global) :
    (∀ s2 e2, Environment.set_var s e n v = Except.ok (s2, e2) →
        Environment.lookup s2 e m = Environment.lookup s e m)
  ∧ (∀ s2 e2, Environment.add_var s e n expr = Except.ok (s2, e2) →
        Environment.lookup s2 e m = Environment.lookup s e m) := by
  constructor
  · intro s2 e2 hset
    cases hpos : n.env_pos.1 with
    | global =>
      have hm : m.env_pos.1 ≠ ScopePos.global := by
        cases h with
        | inl hn => exact absurd hpos hn
        | inr hm => exact hm
      cases hmp : m.env_pos.1 with
      | global => exact absurd hmp hm
      | idx j => unfold Environment.lookup Environment.frameAt; rw [hmp]
    | idx i =>
      obtain ⟨f, f2, hfi, hf, hs2, he2⟩ := set_var_ok_idx s e n v s2 e2 i hpos hset
      subst hs2
      rfl
  · intro s2 e2 hadd
    unfold Environment.add_var at hadd
    rw [env_copy_id] at hadd
    cases hpos : n.env_pos.1 with
    | global =>
      have hm : m.env_pos.1 ≠ ScopePos.global := by
        cases h with
        | inl hn => exact absurd hpos hn
        | inr hm => exact hm
      cases hmp : m.env_pos.1 with
      | global => exact absurd hmp hm
      | idx j => unfold Environment.lookup Environment.frameAt; rw [hmp]
    | idx i =>
      obtain ⟨hi, f, f2, hfi, hf, hs2, he2⟩ :=
        add_var_mut_ok_idx s e n expr s2 e2 i hpos hadd
      subst hs2
      rfl

/-- Concrete instance of `mutation_nondestructive_nonglobal`: rebinding the
stack variable y of `env1` leaves the global lookup on the original `env1`
unchanged. -/
theorem mutation_nondestructive_nonglobal_witness :
    Environment.set_var store0 env1 nameY (LiteralType.num 9)
      = Except.ok (store0, env2)
  ∧ Environment.lookup store0 env1 nameGX = Environment.lookup store0 env1 nameGX :=
  ⟨rfl,
   (mutation_nondestructive_nonglobal store0 env1 nameY nameGX (LiteralType.num 9)
      (AstNode.literal (LiteralType.num 0)) (Or.inl (by decide))).1 store0 env2 rfl⟩

/-- Claim C5: `add_var` with a resolved name whose slot is already
occupied in the addressed frame always fails (with `varExists` when the
frame is reachable for adding, with `addOutsideScope` otherwise — a
`ScopeError` either way), and `remove_frame` on an empty frame stack
always fails. -/
theorem add_var_occupied_remove_frame_empty_fail (s : Store) (e : Environment)
    (n : ResolvedName) (expr : AstNode) :
    (∀ f, Environment.frameAt s e n.env_pos.1 = some f →
        mapHas f.frame_items n.env_pos.2 = true →
        ∃ err, Environment.add_var s e n expr = Except.error err)
  ∧ (e.frames.length = 0 → ∃ err, Environment.remove_frame e = Except.error err) := by
  constructor
  · intro f hf hocc
    unfold Environment.add_var
    rw [env_copy_id]
    cases hpos : n.env_pos.1 with
    | global =>
      simp only [Environment.frameAt, hpos, Option.some.injEq] at hf
      refine ⟨ScopeError.varExists, ?_⟩
      simp [Environment.add_var_mut, hpos, Frame.add_var, hf, hocc]
    | idx i =>
      simp only [Environment.frameAt, hpos] at hf
      by_cases hi : (i : Int) = (e.frames.length : Int) - 1
      · refine ⟨ScopeError.varExists, ?_⟩
        simp [Environment.add_var_mut, hpos, if_pos hi, hf, Frame.add_var, hocc]
      · refine ⟨ScopeError.addOutsideScope, ?_⟩
        simp [Environment.add_var_mut, hpos, if_neg hi]
  · intro hlen
    refine ⟨ScopeError.removeEmptyFrame, ?_⟩
    unfold Environment.remove_frame
    rw [hlen]
    rfl

/-- Concrete instance of `add_var_occupied_remove_frame_empty_fail`:
re-adding the already-bound inner slot of `env1` fails, and removing a
frame from the stackless `env0` fails. -/
theorem add_var_occupied_remove_frame_empty_fail_witness :
    (∃ err, Environment.add_var store0 env1 nameZ
        (AstNode.literal (LiteralType.num 0)) = Except.error err)
  ∧ (∃ err, Environment.remove_frame env0 = Except.error err) :=
  ⟨(add_var_occupied_remove_frame_empty_fail store0 env1 nameZ
      (AstNode.literal (LiteralType.num 0))).1
      ⟨[(0, ⟨"z", AstNode.literal (LiteralType.num 7)⟩)]⟩ rfl rfl,
   (add_var_occupied_remove_frame_empty_fail store0 env0 nameZ
      (AstNode.literal (LiteralType.num 0))).2 rfl⟩

/-- Claim C8: every environment-producing operation returns an environment
whose `global_frame` is the very same frame reference as the input's: the
global frame object is shared, never copied. -/
theorem global_frame_shared (s : Store) (e : Environment) (n : ResolvedName)
    (v : LiteralType) (expr : AstNode) :
    (Environment.copy e).global_frame = e.global_frame
  ∧ (∀ s2 e2, Environment.set_var s e n v = Except.ok (s2, e2) →
      e2.global_frame = e.global_frame)
  ∧ (∀ s2 e2, Environment.add_var s e n expr = Except.ok (s2, e2) →
      e2.global_frame = e.global_frame)
  ∧ (Environment.add_frame e).global_frame = e.global_frame
  ∧ (∀ e2, Environment.remove_frame e = Except.ok e2 →
      e2.global_frame = e.global_frame) := by
  refine ⟨rfl, ?_, ?_, rfl, ?_⟩
  · intro s2 e2 h
    cases hpos : n.env_pos.1 with
    | global =>
      obtain ⟨f2, hf, hs2, he2⟩ := set_var_ok_global s e n v s2 e2 hpos h
      rw [he2]
    | idx i =>
      obtain ⟨f, f2, hfi, hf, hs2, he2⟩ := set_var_ok_idx s e n v s2 e2 i hpos h
      rw [he2]
  · intro s2 e2 h
    unfold Environment.add_var at h
    rw [env_copy_id] at h
    cases hpos : n.env_pos.1 with
    | global =>
      obtain ⟨f2, hf, hs2, he2⟩ := add_var_mut_ok_global s e n expr s2 e2 hpos h
      rw [he2]
    | idx i =>
      obtain ⟨hi, f, f2, hfi, hf, hs2, he2⟩ :=
        add_var_mut_ok_idx s e n expr s2 e2 i hpos h
      rw [he2]
  · intro e2 h
    unfold Environment.remove_frame at h
    by_cases hl : e.frames.length > 0
    · rw [if_pos hl] at h
      injection h with h2
      rw [h2.symm]
    · rw [if_neg hl] at h
      exact Except.noConfusion h

/-- Concrete instance of `global_frame_shared` on `env1`. -/
theorem global_frame_shared_witness :
    env2.global_frame = env1.global_frame ∧ env0.global_frame = env0.global_frame :=
  ⟨(global_frame_shared store0 env1 nameY (LiteralType.num 9)
      (AstNode.literal (LiteralType.num 0))).2.1 store0 env2 rfl,
   (global_frame_shared store0 env0 nameGX (LiteralType.num 9)
      (AstNode.literal (LiteralType.num 0))).1⟩

/-- Claim C9: a successful `set_var` modifies only the addressed slot: any
resolved name with a different address looks up to exactly the same result
in the produced environment (under the produced heap) as in the original,
and the frame-stack length is unchanged. -/
theorem set_var_modifies_only_target (s : Store) (e : Environment)
    (n m : ResolvedName) (v : LiteralType) (s2 : Store) (e2 : Environment)
    (hset : Environment.set_var s e n v = Except.ok (s2, e2))
    (hne : m.env_pos ≠ n.env_pos) :
    Environment.lookup s2 e2 m = Environment.lookup s e m
  ∧ e2.frames.length = e.frames.length := by
  cases hpos : n.env_pos.1 with
  | global =>
    obtain ⟨f2, hf, hs2, he2⟩ := set_var_ok_global s e n v s2 e2 hpos hset
    obtain ⟨fs, hg, hsym, hf2⟩ := Frame.set_var_ok _ n v f2 hf
    have hlive : e.global_frame < s.frames.length := store_get_live s _ _ _ hg
    subst hs2 he2
    refine ⟨?_, rfl⟩
    cases hmp : m.env_pos.1 with
    | idx j => unfold Environment.lookup Environment.frameAt; rw [hmp]
    | global =>
      have hslot : m.env_pos.2 ≠ n.env_pos.2 := by
        intro heq
        exact hne (Prod.ext (hmp.trans hpos.symm) heq)
      simp only [Environment.lookup, Environment.frameAt, hmp,
        store_get_set_self s _ _ hlive]
      rw [hf2, Frame.lookup_set_other _ n m v hslot]
  | idx i =>
    obtain ⟨f, f2, hfi, hf, hs2, he2⟩ := set_var_ok_idx s e n v s2 e2 i hpos hset
    obtain ⟨fs, hg, hsym, hf2⟩ := Frame.set_var_ok _ n v f2 hf
    have hi : i < e.frames.length := by
      by_contra hge
      rw [List.getElem?_eq_none (Nat.le_of_not_lt hge)] at hfi
      exact Option.noConfusion hfi
    subst hs2 he2
    refine ⟨?_, by simp⟩
    cases hmp : m.env_pos.1 with
    | global => unfold Environment.lookup Environment.frameAt; rw [hmp]
    | idx j =>
      by_cases hj : j = i
      · subst hj
        have hslot : m.env_pos.2 ≠ n.env_pos.2 := by
          intro heq
          exact hne (Prod.ext (hmp.trans hpos.symm) heq)
        simp only [Environment.lookup, Environment.frameAt, hmp,
          list_get_set_self e.frames j f2 hi, hfi]
        rw [hf2, Frame.lookup_set_other _ n m v hslot]
      · simp only [Environment.lookup, Environment.frameAt, hmp,
          list_get_set_ne e.frames i j f2 (fun hh => hj hh.symm)]

/-- Concrete instance of `set_var_modifies_only_target`: rebinding y in
`env1` leaves the lookup of z unchanged and preserves the stack length. -/
theorem set_var_modifies_only_target_witness :
    Environment.lookup store0 env2 nameZ = Environment.lookup store0 env1 nameZ
  ∧ env2.frames.length = env1.frames.length :=
  set_var_modifies_only_target store0 env1 nameY nameZ (LiteralType.num 9)
    store0 env2 rfl (by decide)

/-- Claim C10: `add_var` with a resolved name whose scope index is a stack
index other than the innermost frame's index (`frames.length - 1`, JS
arithmetic) always fails, even if that frame exists and the slot is free. -/
theorem add_var_not_innermost_fails (s : Store) (e : Environment)
    (n : ResolvedName) (expr : AstNode) (i : Nat)
    (hpos : n.env_pos.1 = ScopePos.idx i)
    (hne : (i : Int) ≠ (e.frames.length : Int) - 1) :
    Environment.add_var s e n expr = Except.error ScopeError.addOutsideScope := by
  unfold Environment.add_var
  rw [env_copy_id]
  simp only [Environment.add_var_mut, hpos, if_neg hne]

/-- Concrete instance of `add_var_not_innermost_fails`: adding at the
outer frame (index 0) of the two-frame `env1` fails even though that frame
exists and slot 5 is free there. -/
theorem add_var_not_innermost_fails_witness :
    Environment.add_var store0 env1 ⟨"w", (ScopePos.idx 0, 5)⟩
      (AstNode.literal (LiteralType.num 0)) = Except.error ScopeError.addOutsideScope :=
  add_var_not_innermost_fails store0 env1 ⟨"w", (ScopePos.idx 0, 5)⟩
    (AstNode.literal (LiteralType.num 0)) 0 rfl (by decide)

/-- Claim C6: constructing a `RegulativeRuleConclusion` succeeds exactly
when at least one of `fulfilled`/`performed` equals `true`; with both
false, both absent, or any combination where neither equals `true`, the
construction always fails. -/
theorem conclusion_requires_fulfilled_or_performed
    (fulfilled performed : Option Bool) (mutations : List Mutation)
    (conclusions : List ConclusionItem) (toks : List Token) :
    (∃ c, RegulativeRuleConclusion.make fulfilled performed mutations conclusions toks
        = Except.ok c)
      ↔ (fulfilled = some true ∨ performed = some true) := by
  unfold RegulativeRuleConclusion.make
  by_cases h : fulfilled = some true ∨ performed = some true
  · simp [h]
  · simp [h]

/-- Claim C7: constructing a `TemporalConstraint` with `is_relative = true`
and an `AbsoluteTime` timestamp always fails, with `is_relative = false`
and a `RelativeTime` timestamp always fails, and construction succeeds
exactly when the flag agrees with the timestamp variant. -/
theorem temporal_constraint_flag_agrees (b : Bool) (ts : TimestampNode)
    (toks : List Token) (r : RelativeTime) (a : AbsoluteTime) :
    (∃ err, TemporalConstraint.make true (TimestampNode.absolute a) toks
        = Except.error err)
  ∧ (∃ err, TemporalConstraint.make false (TimestampNode.relative r) toks
        = Except.error err)
  ∧ ((∃ tc, TemporalConstraint.make b ts toks = Except.ok tc) ↔
      ((b = true ∧ ∃ t, ts = TimestampNode.relative t)
        ∨ (b = false ∧ ∃ t, ts = TimestampNode.absolute t))) := by
  refine ⟨⟨_, rfl⟩, ⟨_, rfl⟩, ?_⟩
  cases b <;> cases ts <;> simp [TemporalConstraint.make, TimestampNode.tag]

end NL5
